import Mathlib

/-!
Verification of the YourFM playlist discovery/mixing backend
(`backend/server.py`, endpoint `POST /api/spotify/tracks`, function
`get_tracks`).  The Python code is shallowly embedded: the external
Spotify catalog is an oracle record of pure functions, PRNG shuffles
become universally quantified permutations (oracles return the
post-shuffle order), and the request-local mutable state
(`seen_uris`, the two track pools, `discovery_artist_names`,
`checked_collaborators`) is threaded explicitly.
-/

/-- Python's substring test: `strIn sub s` models the expression
`sub in s` on strings (empty `sub` is contained in everything,
exactly as in Python). -/
def strIn (sub s : String) : Bool :=
  (List.range (s.data.length + 1)).any (fun i => sub.data.isPrefixOf (s.data.drop i))

/-- Python's `str.lower()` restricted to the ASCII range, which covers
every string the genre tables and tests use.  (`String.toLower` itself
is avoided only because its `String.mapAux` does not reduce in the
kernel.) -/
def pyLower (s : String) : String := ⟨s.data.map Char.toLower⟩

/-- Either-direction substring match used throughout the genre rules:
`a in b or b in a` after both sides were lowercased by the caller. -/
def eitherIn (a b : String) : Bool :=
  strIn a b || strIn b a

/-- `BLOCKED_GENRES_MAP` from `server.py` (lines 397-403): genres that
must never appear on a station of the given family, unless the user
selected them. -/
def BLOCKED_GENRES_MAP : List (String × List String) :=
  [("rock", ["hip hop", "rap", "trap", "drill", "reggaeton", "latin", "country",
             "k-pop", "j-pop", "r&b", "soul"]),
   ("metal", ["hip hop", "rap", "trap", "drill", "reggaeton", "latin", "country",
              "k-pop", "j-pop", "r&b", "soul", "pop"]),
   ("hip-hop", ["metal", "rock", "punk", "country", "classical"]),
   ("pop", ["metal", "death", "black metal", "hardcore", "screamo"]),
   ("country", ["metal", "hip hop", "rap", "electronic", "techno"])]

/-- The blocked set built inside `is_genre_blocked` (lines 426-439):
for each station genre, every family of `BLOCKED_GENRES_MAP` whose name
substring-matches it (either direction) contributes its blocked genres,
except entries that themselves substring-match some station genre.
The Python `set` is modelled as a list; only membership is consumed. -/
def blocked_list_of (station_genres_lower : List String) : List String :=
  station_genres_lower.flatMap (fun station_genre =>
    (BLOCKED_GENRES_MAP.filter
        (fun p => strIn p.1 station_genre || strIn station_genre p.1)).flatMap
      (fun p => p.2.filter
        (fun blocked_genre =>
          !(station_genres_lower.any (fun sg => eitherIn blocked_genre sg)))))

/-- `is_genre_blocked` (lines 411-447).  Returns the pair
`(is_blocked, offending artist genre)`.  A candidate matching any
selected station genre is never blocked; otherwise it is blocked iff
one of its genres has a member of the blocked set as a substring. -/
def is_genre_blocked (artist_genres station_genres : List String) :
    Bool × Option String :=
  let artist_genres_lower := artist_genres.map pyLower
  let station_genres_lower := station_genres.map pyLower
  if artist_genres_lower.any (fun artist_genre =>
      station_genres_lower.any (fun station_genre =>
        strIn station_genre artist_genre || strIn artist_genre station_genre)) then
    (false, none)
  else
    let blocked := blocked_list_of station_genres_lower
    match artist_genres_lower.find? (fun artist_genre =>
        blocked.any (fun blocked_genre => strIn blocked_genre artist_genre)) with
    | some artist_genre => (true, some artist_genre)
    | none => (false, none)

example : (is_genre_blocked ["hip hop", "rock"] ["rock", "hip-hop"]).1 = false := by
  decide

example : (is_genre_blocked ["reggaeton"] ["metal"]).1 = true := by decide

example : (is_genre_blocked ["reggaeton"] ["metal"]).2 = some "reggaeton" := by
  decide

/-- An artist object as it appears inside a track's `artists` array. -/
structure SimpleArtist where
  id : String
  name : String
  deriving DecidableEq

/-- The relevant part of an `sp.artist(...)` response: display name and
genre tags. -/
structure ArtistInfo where
  name : String
  genres : List String
  deriving DecidableEq

/-- An artist object from `sp.search(type='artist')` results. -/
structure FoundArtist where
  id : String
  name : String
  genres : List String
  deriving DecidableEq

/-- A raw Spotify track as consumed by `add_track` and
`is_selected_artist`: only the fields the mixer reads are modelled.
The code indexes `track['artists'][0]`; the API guarantees a nonempty
artist list, modelled by reading the head with a default. -/
structure RawTrack where
  uri : String
  name : String
  artists : List SimpleArtist
  album : String
  duration_ms : Nat
  deriving DecidableEq

/-- The primary artist `track['artists'][0]`. -/
def RawTrack.primary (t : RawTrack) : SimpleArtist :=
  t.artists.headD ⟨"", ""⟩

/-- The `track_data` dictionary built in `add_track` (lines 453-463). -/
structure TrackData where
  uri : String
  name : String
  artist : String
  artist_id : String
  album : String
  duration_ms : Nat
  is_discovery : Bool
  deriving DecidableEq

/-- The request-local mutable state of `get_tracks`: the dedup set
`seen_uris` (a Python set, modelled as a list consumed only through
membership), the two pools, and the discovered-artist name set. -/
structure MixState where
  seen_uris : List String
  selected_artist_tracks : List TrackData
  discovery_tracks : List TrackData
  discovery_artist_names : List String
  deriving DecidableEq

/-- The empty state the request handler starts from (lines 376-379). -/
def initState : MixState := ⟨[], [], [], []⟩

/-- The external Spotify catalog, as an oracle of pure functions.
`none` models the call raising an exception for that item.  Lists that
the Python code shuffles right after fetching (`artist_top_tracks`,
search results) are taken to be already in their post-shuffle order,
so that theorems quantifying over the oracle cover every PRNG outcome.
One deterministic function per endpoint also models the per-request
memoisation (`verified_artist_cache`, `checked_collaborators`). -/
structure Catalog where
  artistInfo : String → Option ArtistInfo
  topTracks : String → Option (List RawTrack)
  searchArtists : String → Option (List FoundArtist)
  artistAlbums : String → Option (List String)
  albumTracks : String → Option (List RawTrack)

/-- The request body of `POST /api/spotify/tracks`: chosen artists and
station genres.  (The code also accepts bare id strings in `artists`;
those contribute an id and no name, which is the `name`-absent case of
the same shape and is not modelled separately.) -/
structure TracksRequest where
  artists : List SimpleArtist
  genres : List String

/-- `is_selected_artist` (lines 405-409): the track's primary artist is
one of the chosen artists, by id or by lowercased name. -/
def is_selected_artist (artist_ids artist_names : List String)
    (track : RawTrack) : Bool :=
  track.primary.id ∈ artist_ids || pyLower track.primary.name ∈ artist_names

/-- `add_track` (lines 449-466): append the track to the given pool
unless its URI was already seen; a discovery add also records the
artist name. -/
def add_track (st : MixState) (track : RawTrack) (is_discovery : Bool) :
    MixState :=
  if track.uri ∈ st.seen_uris then st
  else
    let track_data : TrackData :=
      { uri := track.uri, name := track.name,
        artist := track.primary.name, artist_id := track.primary.id,
        album := track.album, duration_ms := track.duration_ms,
        is_discovery := is_discovery }
    if is_discovery then
      { st with seen_uris := track.uri :: st.seen_uris,
                discovery_tracks := st.discovery_tracks ++ [track_data],
                discovery_artist_names :=
                  track.primary.name :: st.discovery_artist_names }
    else
      { st with seen_uris := track.uri :: st.seen_uris,
                selected_artist_tracks := st.selected_artist_tracks ++ [track_data] }

/-- One iteration of STEP 1 (lines 474-483): fetch a chosen artist's
top tracks (exception: skip the artist) and add up to five of them to
the selected pool. -/
def step1_artist (cat : Catalog) (st : MixState) (artist_id : String) :
    MixState :=
  match cat.topTracks artist_id with
  | none => st
  | some tracks =>
      (tracks.take 5).foldl (fun s t => add_track s t false) st

/-- STEP 1 (lines 468-483): top tracks of the first ten artists in the
shuffled chosen-artist list feed the selected pool. -/
def step1 (cat : Catalog) (shuffled_artist_ids : List String)
    (st : MixState) : MixState :=
  (shuffled_artist_ids.take 10).foldl (step1_artist cat) st

/-- `verify_artist_genre` (lines 515-548) as a pure function of the
oracle.  A failed `sp.artist` call allows the artist ("better than
blocking everything"); otherwise the artist must not be blocked and,
when it reports any genres, must overlap one of the first eight target
genres.  `verified_artist_cache` memoises this deterministic function
and needs no separate model. -/
def verify_artist_genre (cat : Catalog) (genres all_target_genres : List String)
    (artist_id : String) : Bool :=
  match cat.artistInfo artist_id with
  | none => true
  | some info =>
      let artist_genres := info.genres
      if (is_genre_blocked artist_genres genres).1 then false
      else
        let artist_genres_lower := artist_genres.map pyLower
        let genre_overlap := (all_target_genres.take 8).any (fun target_g =>
          artist_genres_lower.any (fun artist_g =>
            strIn target_g artist_g || strIn artist_g target_g))
        if ¬ genre_overlap ∧ artist_genres ≠ [] then false else true

/-- The inner track loop shared by lines 580-585 and 640-646: add each
candidate track unless its primary artist is a chosen artist, stopping
once the discovery pool has reached `limit` (the size check runs after
each add, so the pool can exceed `limit` by at most the final add). -/
def addLoop (artist_ids artist_names : List String) (limit : Nat) :
    List RawTrack → MixState → MixState
  | [], st => st
  | t :: ts, st =>
      let st' := if ¬ is_selected_artist artist_ids artist_names t then
                   add_track st t true
                 else st
      if limit ≤ st'.discovery_tracks.length then st'
      else addLoop artist_ids artist_names limit ts st'

/-- The artist loop of STEP 2 (lines 562-590): skip chosen artists,
skip unverified artists, fetch top tracks (exception: skip), add up to
five, and stop the loop when the pool has 150 tracks.  The 150-check
at line 587 sits inside the `try`, so a failed fetch skips it. -/
def step2_artists (cat : Catalog) (artist_ids artist_names genres
    all_target_genres : List String) :
    List FoundArtist → MixState → MixState
  | [], st => st
  | a :: rest, st =>
      if a.id ∈ artist_ids ∨ pyLower a.name ∈ artist_names then
        step2_artists cat artist_ids artist_names genres all_target_genres rest st
      else if ¬ verify_artist_genre cat genres all_target_genres a.id then
        step2_artists cat artist_ids artist_names genres all_target_genres rest st
      else
        match cat.topTracks a.id with
        | none =>
            step2_artists cat artist_ids artist_names genres all_target_genres rest st
        | some tracks =>
            let st' := addLoop artist_ids artist_names 150 (tracks.take 5) st
            if 150 ≤ st'.discovery_tracks.length then st'
            else step2_artists cat artist_ids artist_names genres
                   all_target_genres rest st'

/-- The genre loop of STEP 2 (lines 552-597): search artists in each
target genre (exception: skip the genre, which also skips the
150-check), process the found artists, stop at 150 discovery tracks. -/
def step2_genres (cat : Catalog) (artist_ids artist_names genres
    all_target_genres : List String) :
    List String → MixState → MixState
  | [], st => st
  | g :: rest, st =>
      match cat.searchArtists g with
      | none =>
          step2_genres cat artist_ids artist_names genres all_target_genres rest st
      | some found =>
          let st' := step2_artists cat artist_ids artist_names genres
                       all_target_genres found st
          if 150 ≤ st'.discovery_tracks.length then st'
          else step2_genres cat artist_ids artist_names genres
                 all_target_genres rest st'

/-- STEP 2 (lines 550-597): only the first six target genres are
searched. -/
def step2 (cat : Catalog) (artist_ids artist_names genres
    all_target_genres : List String) (st : MixState) : MixState :=
  step2_genres cat artist_ids artist_names genres all_target_genres
    (all_target_genres.take 6) st

/-- One collaborator inside STEP 3 (lines 624-651): each featured
artist is checked at most once per request (`checked_collaborators`),
chosen artists are left alone, others must pass genre verification and
contribute up to three top tracks; the 200-check at line 650 is
reached only on the fall-through paths, not after a `continue`. -/
def step3_track_artist (cat : Catalog) (artist_ids artist_names genres
    all_target_genres : List String) (ta : SimpleArtist)
    (s : MixState × List String) : MixState × List String × Bool :=
  let (st, checked) := s
  if ta.id ∈ checked then (st, checked, false)
  else
    let checked' := ta.id :: checked
    if ta.id ∉ artist_ids ∧ pyLower ta.name ∉ artist_names then
      if ¬ verify_artist_genre cat genres all_target_genres ta.id then
        (st, checked', false)
      else
        match cat.topTracks ta.id with
        | none => (st, checked', false)
        | some tracks =>
            let st' := addLoop artist_ids artist_names 200 (tracks.take 3) st
            (st', checked', 200 ≤ st'.discovery_tracks.length)
    else
      (st, checked', 200 ≤ st.discovery_tracks.length)

/-- The featured-artist loop over `track['artists'][1:]` (lines
624-651); the boolean of `step3_track_artist` is the `break`. -/
def step3_track_artists (cat : Catalog) (artist_ids artist_names genres
    all_target_genres : List String) :
    List SimpleArtist → MixState × List String → MixState × List String
  | [], s => s
  | ta :: rest, s =>
      match step3_track_artist cat artist_ids artist_names genres
              all_target_genres ta s with
      | (st', checked', stop) =>
          if stop then (st', checked')
          else step3_track_artists cat artist_ids artist_names genres
                 all_target_genres rest (st', checked')

/-- The album-track loop (lines 622-651): every track of the album is
scanned for featured artists; there is no break at this level. -/
def step3_tracks (cat : Catalog) (artist_ids artist_names genres
    all_target_genres : List String) :
    List RawTrack → MixState × List String → MixState × List String
  | [], s => s
  | tr :: rest, s =>
      let s' := step3_track_artists cat artist_ids artist_names genres
                  all_target_genres (tr.artists.drop 1) s
      step3_tracks cat artist_ids artist_names genres all_target_genres rest s'

/-- The album loop (lines 617-656): fetch the album's tracks
(exception: next album, skipping the 200-check), process them, and
break out of the album loop at 200 discovery tracks. -/
def step3_albums (cat : Catalog) (artist_ids artist_names genres
    all_target_genres : List String) :
    List String → MixState × List String → MixState × List String
  | [], s => s
  | al :: rest, s =>
      match cat.albumTracks al with
      | none =>
          step3_albums cat artist_ids artist_names genres all_target_genres rest s
      | some tracks =>
          let s' := step3_tracks cat artist_ids artist_names genres
                      all_target_genres tracks s
          if 200 ≤ s'.1.discovery_tracks.length then s'
          else step3_albums cat artist_ids artist_names genres
                 all_target_genres rest s'

/-- The chosen-artist loop of STEP 3 (lines 611-661): fetch each
artist's albums (exception: next artist), look at the first five, and
stop at 200 discovery tracks. -/
def step3_artists (cat : Catalog) (artist_ids artist_names genres
    all_target_genres : List String) :
    List String → MixState × List String → MixState × List String
  | [], s => s
  | aid :: rest, s =>
      match cat.artistAlbums aid with
      | none =>
          step3_artists cat artist_ids artist_names genres all_target_genres rest s
      | some albums =>
          let s' := step3_albums cat artist_ids artist_names genres
                      all_target_genres (albums.take 5) s
          if 200 ≤ s'.1.discovery_tracks.length then s'
          else step3_artists cat artist_ids artist_names genres
                 all_target_genres rest s'

/-- STEP 3 (lines 606-663): collaborators of the first five shuffled
chosen artists, starting from an empty `checked_collaborators` set. -/
def step3 (cat : Catalog) (artist_ids artist_names genres
    all_target_genres : List String) (shuffled_artist_ids : List String)
    (st : MixState) : MixState :=
  (step3_artists cat artist_ids artist_names genres all_target_genres
    (shuffled_artist_ids.take 5) (st, [])).1

/-- Order-preserving dedup of lines 509-510
(`seen or seen.add(g)`). -/
def dedupKeepFirst (l : List String) : List String :=
  (l.foldl (fun acc g => if g ∈ acc then acc else acc ++ [g]) [])

/-- The derived target-genre list (lines 494-510): genres reported by
the first five chosen artists (a Python set, here in first-seen order,
which Python leaves unspecified) followed by the lowercased station
genres, deduplicated keeping first occurrences. -/
def all_target_genres_of (cat : Catalog) (artist_ids genres : List String) :
    List String :=
  let selected_artist_genres :=
    (((artist_ids.take 5).filterMap cat.artistInfo).map
      (fun info => info.genres.map pyLower)).flatten
  dedupKeepFirst (selected_artist_genres ++ genres.map pyLower)

/-- The lowercased chosen-artist name set (lines 358-371): names from
the request plus names fetched for the first ten ids. -/
def artist_names_of (cat : Catalog) (req : TracksRequest) : List String :=
  req.artists.map (fun a => pyLower a.name) ++
    (((req.artists.map (fun a => a.id)).take 10).filterMap
      (fun i => (cat.artistInfo i).map (fun info => pyLower info.name)))

/-- The interleaving loop of STEP 4 (lines 691-706): while either pool
has tracks left, emit up to four discovery tracks and then one
selected track.  The loop consumes at least one track per iteration,
so running it with fuel `ds.length + ss.length` is exact; the fuel is
only a structural-recursion artifact. -/
def interleaveGo : Nat → List TrackData → List TrackData → List TrackData
  | 0, _, _ => []
  | fuel + 1, ds, ss =>
      if ds = [] ∧ ss = [] then []
      else ds.take 4 ++ ss.take 1 ++ interleaveGo fuel (ds.drop 4) (ss.drop 1)

/-- The while-loop of lines 696-706. -/
def interleave (ds ss : List TrackData) : List TrackData :=
  interleaveGo (ds.length + ss.length) ds ss

/-- STEP 4 (lines 667-706): take 40 discovery and 10 selected tracks
(`int(50 * 0.80) = 40`), redistribute a shortfall of either pool to
the other, and interleave at the 4:1 cadence.  The arguments are the
pools after the final `random.shuffle` of lines 674-675. -/
def assemble (discovery_tracks selected_artist_tracks : List TrackData) :
    List TrackData :=
  let target_total := 50
  let target_discovery := 40
  let target_selected := target_total - target_discovery
  let final_discovery := discovery_tracks.take target_discovery
  let final_selected := selected_artist_tracks.take target_selected
  let pools :=
    if final_discovery.length < target_discovery then
      (final_discovery,
       selected_artist_tracks.take
         (target_selected + (target_discovery - final_discovery.length)))
    else if final_selected.length < target_selected then
      (discovery_tracks.take
         (target_discovery + (target_selected - final_selected.length)),
       final_selected)
    else (final_discovery, final_selected)
  interleave pools.1 pools.2

/-- The state after the three discovery steps of `get_tracks`, i.e.
both pools right before the final shuffle and assembly.  `permIds` is
the PRNG permutation applied to the artist list at line 470. -/
def mixPools (cat : Catalog) (req : TracksRequest)
    (permIds : List String → List String) : MixState :=
  let artist_ids := req.artists.map (fun a => a.id)
  let artist_names := artist_names_of cat req
  let shuffled_artist_ids := permIds artist_ids
  let genres := req.genres
  let all_target_genres := all_target_genres_of cat artist_ids genres
  let st1 := step1 cat shuffled_artist_ids initState
  let st2 := step2 cat artist_ids artist_names genres all_target_genres st1
  step3 cat artist_ids artist_names genres all_target_genres
    shuffled_artist_ids st2

/-- The track list returned by `get_tracks` (line 718): the two pools,
independently shuffled (`permD`, `permS`, lines 674-675), assembled at
the 4:1 cadence. -/
def get_tracks_tracks (cat : Catalog) (req : TracksRequest)
    (permIds : List String → List String)
    (permD permS : List TrackData → List TrackData) : List TrackData :=
  let pools := mixPools cat req permIds
  assemble (permD pools.discovery_tracks) (permS pools.selected_artist_tracks)

/-- The whole `POST /api/spotify/tracks` handler (lines 343-718): with
no stored Spotify token the request fails with 401 before anything
else runs; otherwise the mixed playlist is returned. -/
def get_tracks (token_doc : Option String) (cat : Catalog)
    (req : TracksRequest) (permIds : List String → List String)
    (permD permS : List TrackData → List TrackData) :
    Except (Nat × String) (List TrackData) :=
  match token_doc with
  | none => Except.error (401, "Not authenticated with Spotify")
  | some _ => Except.ok (get_tracks_tracks cat req permIds permD permS)

/-- Spec-side cadence (§4.3 step 4 of the spec, stated in its words):
"repeatedly emit up to 4 discovery tracks then 1 selected-pool track,
continuing until both pools are exhausted". -/
def specCadence : List TrackData → List TrackData → List TrackData
  | ds, [] => ds
  | ds, s :: ss => ds.take 4 ++ s :: specCadence (ds.drop 4) ss

theorem interleaveGo_succ (fuel : Nat) (ds ss : List TrackData)
    (h : ¬ (ds = [] ∧ ss = [])) :
    interleaveGo (fuel + 1) ds ss =
      ds.take 4 ++ ss.take 1 ++ interleaveGo fuel (ds.drop 4) (ss.drop 1) := by
  rw [interleaveGo, if_neg h]

/-- With fuel at least the total pool size, the loop computes exactly
the spec's cadence recursion. -/
theorem interleaveGo_spec :
    ∀ (fuel : Nat) (ds ss : List TrackData), ds.length + ss.length ≤ fuel →
      interleaveGo fuel ds ss = specCadence ds ss := by
  intro fuel
  induction fuel with
  | zero =>
      intro ds ss h
      have hds : ds = [] := List.length_eq_zero.mp (by omega)
      have hss : ss = [] := List.length_eq_zero.mp (by omega)
      subst hds; subst hss
      rfl
  | succ fuel ih =>
      intro ds ss h
      by_cases hni : ds = [] ∧ ss = []
      · obtain ⟨h1, h2⟩ := hni; subst h1; subst h2; rfl
      · rw [interleaveGo_succ fuel ds ss hni]
        have hpos : 0 < ds.length ∨ 0 < ss.length := by
          rcases not_and_or.mp hni with h' | h'
          · exact Or.inl (List.length_pos.mpr h')
          · exact Or.inr (List.length_pos.mpr h')
        have hfuel : (ds.drop 4).length + (ss.drop 1).length ≤ fuel := by
          simp only [List.length_drop]
          omega
        rw [ih _ _ hfuel]
        rcases ss with _ | ⟨s, ss⟩
        · simp [specCadence, List.take_append_drop]
        · simp [specCadence]

/-- The while-loop of lines 696-706 computes exactly the spec's
cadence recursion. -/
theorem interleave_eq_specCadence (ds ss : List TrackData) :
    interleave ds ss = specCadence ds ss :=
  interleaveGo_spec _ _ _ le_rfl

/-- The cadence emits each pool's tracks exactly once. -/
theorem specCadence_perm : ∀ (ss ds : List TrackData),
    (specCadence ds ss).Perm (ds ++ ss) := by
  intro ss
  induction ss with
  | nil => intro ds; simp [specCadence]
  | cons s ss ih =>
      intro ds
      have h1 : (s :: specCadence (ds.drop 4) ss).Perm (ds.drop 4 ++ s :: ss) :=
        ((ih (ds.drop 4)).cons s).trans List.perm_middle.symm
      have h2 := List.Perm.append_left (ds.take 4) h1
      have h3 : ds.take 4 ++ (ds.drop 4 ++ s :: ss) = ds ++ s :: ss := by
        rw [← List.append_assoc, List.take_append_drop]
      simpa [specCadence, h3] using h2

theorem interleave_perm (ds ss : List TrackData) :
    (interleave ds ss).Perm (ds ++ ss) := by
  rw [interleave_eq_specCadence]
  exact specCadence_perm ss ds

theorem interleave_length (ds ss : List TrackData) :
    (interleave ds ss).length = ds.length + ss.length := by
  have := (interleave_perm ds ss).length_eq
  simpa using this

/-- The first five tracks all carry `is_discovery = true` (false when
there are fewer than five tracks). -/
def first5disc : List TrackData → Bool
  | a :: b :: c :: d :: e :: _ =>
      a.is_discovery && b.is_discovery && c.is_discovery &&
        d.is_discovery && e.is_discovery
  | _ => false

/-- Some window of five consecutive tracks is all discovery, i.e. the
playlist has a run of more than four consecutive discovery tracks. -/
def runOf5 : List TrackData → Bool
  | [] => false
  | x :: l => first5disc (x :: l) || runOf5 l

theorem first5disc_pos0 {s : TrackData} (hs : s.is_discovery = false) :
    ∀ r, first5disc (s :: r) = false := by
  intro r
  rcases r with _ | ⟨a, _ | ⟨b, _ | ⟨c, _ | ⟨d, r⟩⟩⟩⟩ <;> simp [first5disc, hs]

theorem first5disc_pos1 {s : TrackData} (hs : s.is_discovery = false) :
    ∀ x1 r, first5disc (x1 :: s :: r) = false := by
  intro x1 r
  rcases r with _ | ⟨a, _ | ⟨b, _ | ⟨c, r⟩⟩⟩ <;> simp [first5disc, hs]

theorem first5disc_pos2 {s : TrackData} (hs : s.is_discovery = false) :
    ∀ x1 x2 r, first5disc (x1 :: x2 :: s :: r) = false := by
  intro x1 x2 r
  rcases r with _ | ⟨a, _ | ⟨b, r⟩⟩ <;> simp [first5disc, hs]

theorem first5disc_pos3 {s : TrackData} (hs : s.is_discovery = false) :
    ∀ x1 x2 x3 r, first5disc (x1 :: x2 :: x3 :: s :: r) = false := by
  intro x1 x2 x3 r
  rcases r with _ | ⟨a, r⟩ <;> simp [first5disc, hs]

theorem first5disc_pos4 {s : TrackData} (hs : s.is_discovery = false) :
    ∀ x1 x2 x3 x4 r, first5disc (x1 :: x2 :: x3 :: x4 :: s :: r) = false := by
  intro x1 x2 x3 x4 r
  simp [first5disc, hs]

/-- A block of at most four tracks followed by a non-discovery track
contributes no all-discovery window of five. -/
theorem runOf5_block {s : TrackData} (hs : s.is_discovery = false) :
    ∀ ds4 : List TrackData, ds4.length ≤ 4 →
      ∀ rest, runOf5 (ds4 ++ s :: rest) = runOf5 rest := by
  intro ds4 hlen rest
  rcases ds4 with _ | ⟨a, _ | ⟨b, _ | ⟨c, _ | ⟨d, tl⟩⟩⟩⟩
  · simp [runOf5, first5disc_pos0 hs]
  · simp [runOf5, first5disc_pos0 hs, first5disc_pos1 hs]
  · simp [runOf5, first5disc_pos0 hs, first5disc_pos1 hs, first5disc_pos2 hs]
  · simp [runOf5, first5disc_pos0 hs, first5disc_pos1 hs, first5disc_pos2 hs,
      first5disc_pos3 hs]
  · have h4 : tl.length + 4 ≤ 4 := by
      simpa [List.length_cons] using hlen
    have htl : tl = [] := List.length_eq_zero.mp (by omega)
    subst htl
    simp [runOf5, first5disc_pos0 hs, first5disc_pos1 hs, first5disc_pos2 hs,
      first5disc_pos3 hs, first5disc_pos4 hs]

/-- When the discovery input is exactly four times the selected input
and every selected track is flagged non-discovery, the cadence never
produces five consecutive discovery tracks. -/
theorem runOf5_specCadence :
    ∀ (ss ds : List TrackData), ds.length = 4 * ss.length →
      (∀ t ∈ ss, t.is_discovery = false) →
      runOf5 (specCadence ds ss) = false := by
  intro ss
  induction ss with
  | nil =>
      intro ds hlen _
      have : ds = [] := List.length_eq_zero.mp (by simpa using hlen)
      subst this
      rfl
  | cons s ss ih =>
      intro ds hlen hflag
      have hs : s.is_discovery = false := hflag s (List.mem_cons_self _ _)
      have hb := runOf5_block hs (ds.take 4) (by simp)
        (specCadence (ds.drop 4) ss)
      have hrec : runOf5 (specCadence (ds.drop 4) ss) = false := by
        apply ih
        · have hl : ds.length = 4 * (ss.length + 1) := by simpa using hlen
          simp [List.length_drop]
          omega
        · intro t ht; exact hflag t (List.mem_cons_of_mem _ ht)
      calc runOf5 (specCadence ds (s :: ss))
          = runOf5 (ds.take 4 ++ s :: specCadence (ds.drop 4) ss) := rfl
        _ = runOf5 (specCadence (ds.drop 4) ss) := hb
        _ = false := hrec

theorem runOf5_interleave (ds ss : List TrackData)
    (hlen : ds.length = 4 * ss.length)
    (hflag : ∀ t ∈ ss, t.is_discovery = false) :
    runOf5 (interleave ds ss) = false := by
  rw [interleave_eq_specCadence]
  exact runOf5_specCadence ss ds hlen hflag

/-- With full pools neither redistribution branch fires and STEP 4
interleaves the first 40 discovery with the first 10 selected tracks. -/
theorem assemble_eq_interleave_of_full (d s : List TrackData)
    (hd : 40 ≤ d.length) (hs : 10 ≤ s.length) :
    assemble d s = interleave (d.take 40) (s.take 10) := by
  have h1 : ¬ (d.length < 40) := by omega
  have h2 : ¬ (s.length < 10) := by omega
  simp [assemble, h1, h2]

/-- C1.  With `target_total = 50` and `discovery_ratio = 0.80`, when
the discovery pool has at least 40 tracks (all flagged discovery) and
the selected pool at least 10 (all flagged non-discovery), the
assembled playlist has exactly 40 discovery tracks and exactly 10
selected tracks, arranged as the spec's cadence of 4 discovery tracks
followed by 1 selected track, and in particular it never contains a
run of five consecutive discovery tracks. -/
theorem assemble_cadence_C1 (d s : List TrackData)
    (hd : 40 ≤ d.length) (hs : 10 ≤ s.length)
    (hdf : ∀ t ∈ d, t.is_discovery = true)
    (hsf : ∀ t ∈ s, t.is_discovery = false) :
    (assemble d s).countP (fun t => t.is_discovery) = 40 ∧
    (assemble d s).countP (fun t => !t.is_discovery) = 10 ∧
    assemble d s = specCadence (d.take 40) (s.take 10) ∧
    runOf5 (assemble d s) = false := by
  have heq := assemble_eq_interleave_of_full d s hd hs
  have hlen40 : (d.take 40).length = 40 := by
    simp [List.length_take]
    omega
  have hlen10 : (s.take 10).length = 10 := by
    simp [List.length_take]
    omega
  have hperm := interleave_perm (d.take 40) (s.take 10)
  have hdf40 : ∀ t ∈ d.take 40, t.is_discovery = true := fun t ht =>
    hdf t (List.mem_of_mem_take ht)
  have hsf10 : ∀ t ∈ s.take 10, t.is_discovery = false := fun t ht =>
    hsf t (List.mem_of_mem_take ht)
  refine ⟨?_, ?_, ?_, ?_⟩
  · rw [heq, hperm.countP_eq, List.countP_append]
    have c1 : (d.take 40).countP (fun t => t.is_discovery) = 40 := by
      rw [List.countP_eq_length.mpr (fun t ht => by simp [hdf40 t ht]), hlen40]
    have c2 : (s.take 10).countP (fun t => t.is_discovery) = 0 := by
      rw [List.countP_eq_zero.mpr (fun t ht => by simp [hsf10 t ht])]
    omega
  · rw [heq, hperm.countP_eq, List.countP_append]
    have c1 : (d.take 40).countP (fun t => !t.is_discovery) = 0 := by
      rw [List.countP_eq_zero.mpr (fun t ht => by simp [hdf40 t ht])]
    have c2 : (s.take 10).countP (fun t => !t.is_discovery) = 10 := by
      rw [List.countP_eq_length.mpr (fun t ht => by simp [hsf10 t ht]), hlen10]
    omega
  · rw [heq, interleave_eq_specCadence]
  · rw [heq]
    exact runOf5_interleave _ _ (by omega) hsf10

/-- A generic discovery-flagged track for concrete instantiations. -/
def dTr : TrackData := ⟨"spotify:track:d", "D", "DA", "ida", "AlbD", 1000, true⟩

/-- A generic selected-pool track for concrete instantiations. -/
def sTr : TrackData := ⟨"spotify:track:s", "S", "SA", "ids", "AlbS", 1000, false⟩

/-- Witness for C1 at pools of 40 and 10 concrete tracks. -/
theorem assemble_cadence_C1_witness :
    (assemble (List.replicate 40 dTr) (List.replicate 10 sTr)).countP
        (fun t => t.is_discovery) = 40 ∧
    (assemble (List.replicate 40 dTr) (List.replicate 10 sTr)).countP
        (fun t => !t.is_discovery) = 10 ∧
    assemble (List.replicate 40 dTr) (List.replicate 10 sTr) =
      specCadence ((List.replicate 40 dTr).take 40)
        ((List.replicate 10 sTr).take 10) ∧
    runOf5 (assemble (List.replicate 40 dTr) (List.replicate 10 sTr)) = false :=
  assemble_cadence_C1 (List.replicate 40 dTr) (List.replicate 10 sTr)
    (by decide) (by decide) (by decide) (by decide)

/-- C2.  For every pair of pools the assembled playlist has length
exactly `min (|discovery| + |selected|) 50`, and every entry comes
from one of the two pools (no placeholder padding). -/
theorem assemble_length_C2 (d s : List TrackData) :
    (assemble d s).length = min (d.length + s.length) 50 ∧
    ∀ t ∈ assemble d s, t ∈ d ∨ t ∈ s := by
  constructor
  · simp only [assemble]
    split_ifs with h1 h2 <;>
      · rw [interleave_length]
        simp only [List.length_take] at *
        omega
  · intro t ht
    have hsub : ∀ (a b : List TrackData), t ∈ interleave a b → t ∈ a ∨ t ∈ b := by
      intro a b h
      have := (interleave_perm a b).mem_iff.mp h
      simpa using this
    simp only [assemble] at ht
    split_ifs at ht <;>
      rcases hsub _ _ ht with h | h <;>
        first
          | exact Or.inl (List.mem_of_mem_take h)
          | exact Or.inr (List.mem_of_mem_take h)

/-- Witness for C2 at a one-track discovery pool and an empty selected
pool: the playlist has length `min 1 50 = 1` and its track is from the
discovery pool. -/
theorem assemble_length_C2_witness :
    (assemble [dTr] []).length =
      min ([dTr].length + ([] : List TrackData).length) 50 ∧
    (dTr ∈ [dTr] ∨ dTr ∈ ([] : List TrackData)) :=
  ⟨(assemble_length_C2 [dTr] []).1,
   (assemble_length_C2 [dTr] []).2 dTr (by decide)⟩

/-- A concrete catalog for the spec's selection-override example: one
candidate artist reporting genres {"hip hop", "rock"} with one top
track. -/
def catC3 : Catalog :=
  { artistInfo := fun _ => some ⟨"HH", ["hip hop", "rock"]⟩,
    topTracks := fun _ => some [⟨"uri:hh1", "T1", [⟨"cand", "HH"⟩], "Alb", 180000⟩],
    searchArtists := fun _ => some [⟨"cand", "HH", ["hip hop", "rock"]⟩],
    artistAlbums := fun _ => none,
    albumTracks := fun _ => none }

/-- C3.  User selection always overrides the blocklist: whenever some
candidate genre and some station genre substring-match (lowercased,
either direction), `is_genre_blocked` reports not blocked; and on the
spec's example (station genres {"rock", "hip-hop"}, candidate genres
{"hip hop", "rock"}) the candidate passes the full discovery filter
and its track lands in the discovery pool. -/
theorem selection_overrides_blocklist_C3 :
    (∀ candidate_genres station_genres : List String,
      ((candidate_genres.map pyLower).any (fun cg =>
        (station_genres.map pyLower).any (fun sg =>
          strIn sg cg || strIn cg sg))) = true →
      (is_genre_blocked candidate_genres station_genres).1 = false) ∧
    verify_artist_genre catC3 ["rock", "hip-hop"] ["rock", "hip-hop"] "cand"
      = true ∧
    (step2_artists catC3 [] [] ["rock", "hip-hop"] ["rock", "hip-hop"]
        [⟨"cand", "HH", ["hip hop", "rock"]⟩] initState).discovery_tracks.map
      (fun t => t.uri) = ["uri:hh1"] := by
  refine ⟨?_, by decide, by decide⟩
  intro candidate_genres station_genres h
  simp only [is_genre_blocked, h]
  rfl

/-- Witness for C3's universal part at the spec's example genres. -/
theorem selection_overrides_blocklist_C3_witness :
    (is_genre_blocked ["hip hop", "rock"] ["rock", "hip-hop"]).1 = false :=
  selection_overrides_blocklist_C3.1 ["hip hop", "rock"] ["rock", "hip-hop"]
    (by decide)

/-- The blocked set as the claim words it: every family of the fixed
table whose name substring-matches some station genre contributes its
blocked-genre list, minus entries that themselves substring-match a
station genre. -/
def blockedSetSpec (station_genres_lower : List String) : List String :=
  (((BLOCKED_GENRES_MAP.filter (fun p =>
      station_genres_lower.any (fun sg => eitherIn p.1 sg))).map Prod.snd).flatten).filter
    (fun b => !(station_genres_lower.any (fun sg => eitherIn b sg)))

theorem mem_blocked_list_iff (sgl : List String) (b : String) :
    b ∈ blocked_list_of sgl ↔ b ∈ blockedSetSpec sgl := by
  simp only [blocked_list_of, blockedSetSpec, List.mem_flatMap, List.mem_filter,
    List.mem_flatten, List.mem_map, eitherIn]
  aesop

/-- C4.  With no substring overlap between candidate and station
genres, `is_genre_blocked` blocks exactly when some lowercased
candidate genre contains an entry of the blocked set described by the
claim (union of matching families, minus station-matching entries);
the spec's metal/reggaeton example instantiates it. -/
theorem blocklist_iff_C4 (candidate_genres station_genres : List String)
    (hno : ((candidate_genres.map pyLower).any (fun cg =>
        (station_genres.map pyLower).any (fun sg =>
          strIn sg cg || strIn cg sg))) = false) :
    (is_genre_blocked candidate_genres station_genres).1 = true ↔
      ∃ cg ∈ candidate_genres.map pyLower,
        ∃ b ∈ blockedSetSpec (station_genres.map pyLower), strIn b cg = true := by
  simp only [is_genre_blocked, hno, Bool.false_eq_true, if_false]
  cases hfind : (candidate_genres.map pyLower).find? (fun cg =>
      (blocked_list_of (station_genres.map pyLower)).any
        (fun bg => strIn bg cg)) with
  | some a =>
      simp only [hfind]
      constructor
      · intro _
        have hmem := List.mem_of_find?_eq_some hfind
        have hpa := List.find?_some hfind
        obtain ⟨b, hb, hstr⟩ := List.any_eq_true.mp hpa
        exact ⟨a, hmem, b, (mem_blocked_list_iff _ b).mp hb, hstr⟩
      · intro _; simp
  | none =>
      simp only [hfind]
      constructor
      · intro h; exact absurd h (by simp)
      · rintro ⟨cg, hcg, b, hb, hstr⟩
        have hall := List.find?_eq_none.mp hfind cg hcg
        exact absurd (List.any_eq_true.mpr
          ⟨b, (mem_blocked_list_iff _ b).mpr hb, hstr⟩) (by simpa using hall)

/-- Witness for C4: a station genre "metal" with a candidate whose only
genre is "reggaeton" is blocked. -/
theorem blocklist_iff_C4_witness :
    (is_genre_blocked ["reggaeton"] ["metal"]).1 = true :=
  (blocklist_iff_C4 ["reggaeton"] ["metal"] (by decide)).mpr
    ⟨"reggaeton", by decide, "reggaeton", by decide, by decide⟩

/-- C7.  A candidate with a nonempty reported genre list passes
`verify_artist_genre` only if one of its lowercased genres
substring-matches (either direction) a genre of the derived
target-genre list; and a candidate that fails verification is skipped
by the STEP 2 artist loop, which simply continues with the rest. -/
theorem genre_overlap_C7 :
    (∀ (cat : Catalog) (genres all_target_genres : List String)
        (artist_id : String) (info : ArtistInfo),
      cat.artistInfo artist_id = some info →
      info.genres ≠ [] →
      verify_artist_genre cat genres all_target_genres artist_id = true →
      all_target_genres.any (fun target_g =>
        (info.genres.map pyLower).any (fun artist_g =>
          strIn target_g artist_g || strIn artist_g target_g)) = true) ∧
    (∀ (cat : Catalog) (artist_ids artist_names genres all_target_genres :
        List String) (a : FoundArtist) (rest : List FoundArtist) (st : MixState),
      verify_artist_genre cat genres all_target_genres a.id = false →
      step2_artists cat artist_ids artist_names genres all_target_genres
          (a :: rest) st =
        step2_artists cat artist_ids artist_names genres all_target_genres
          rest st) := by
  constructor
  · intro cat genres tgs aid info hinfo hne hver
    simp only [verify_artist_genre, hinfo] at hver
    by_cases hb : (is_genre_blocked info.genres genres).1 = true
    · simp [hb] at hver
    · simp only [Bool.not_eq_true] at hb
      simp only [hb, Bool.false_eq_true, if_false] at hver
      cases hov : ((tgs.take 8).any (fun target_g =>
          (info.genres.map pyLower).any (fun artist_g =>
            strIn target_g artist_g || strIn artist_g target_g))) with
      | true =>
          obtain ⟨tg, htg, hx⟩ := List.any_eq_true.mp hov
          exact List.any_eq_true.mpr ⟨tg, List.mem_of_mem_take htg, hx⟩
      | false =>
          rw [if_pos ⟨by rw [hov]; exact Bool.false_ne_true, hne⟩] at hver
          exact absurd hver (by simp)
  · intro cat ids names genres tgs a rest st hver
    by_cases hsel : a.id ∈ ids ∨ pyLower a.name ∈ names
    · simp [step2_artists, hsel]
    · simp [step2_artists, hsel, hver]

/-- A catalog whose only artist reports the genre "reggaeton", which a
"metal" station blocks, so genre verification fails. -/
def catBlocked : Catalog :=
  { artistInfo := fun _ => some ⟨"R", ["reggaeton"]⟩,
    topTracks := fun _ => some [],
    searchArtists := fun _ => none,
    artistAlbums := fun _ => none,
    albumTracks := fun _ => none }

/-- Witness for C7 on the concrete catalog `catC3`: the verified
candidate overlaps the target list, and an unverifiable candidate
(blocked "reggaeton" artist against a "metal" station) is skipped by
the artist loop. -/
theorem genre_overlap_C7_witness :
    (["rock", "hip-hop"].any (fun target_g =>
      ((["hip hop", "rock"] : List String).map pyLower).any (fun artist_g =>
        strIn target_g artist_g || strIn artist_g target_g)) = true) ∧
    step2_artists catBlocked [] [] ["metal"] ["metal"]
        [⟨"regg", "R", ["reggaeton"]⟩] initState =
      step2_artists catBlocked [] [] ["metal"] ["metal"] [] initState :=
  ⟨genre_overlap_C7.1 catC3 ["rock", "hip-hop"] ["rock", "hip-hop"] "cand"
      ⟨"HH", ["hip hop", "rock"]⟩ rfl (by decide) (by decide),
   genre_overlap_C7.2 catBlocked [] [] ["metal"] ["metal"]
      ⟨"regg", "R", ["reggaeton"]⟩ [] initState (by decide)⟩

/-- A catalog where every external call fails. -/
def catAllFail : Catalog :=
  { artistInfo := fun _ => none, topTracks := fun _ => none,
    searchArtists := fun _ => none, artistAlbums := fun _ => none,
    albumTracks := fun _ => none }

/-- A catalog where the artist-info lookup fails but top tracks are
served: the situation behind the C8 counterexample. -/
def catInfoFail : Catalog :=
  { artistInfo := fun _ => none,
    topTracks := fun _ => some [⟨"uri:x1", "X", [⟨"x", "XA"⟩], "Alb", 1000⟩],
    searchArtists := fun _ => none, artistAlbums := fun _ => none,
    albumTracks := fun _ => none }

/-- Counterexample to C8 as stated: the `sp.artist` call inside genre
verification fails for the candidate artist, yet the artist is NOT
skipped — its top tracks are added to the discovery pool (lines
546-548 return `True` on exception, deliberately allowing the
artist). -/
theorem per_item_failure_C8_counterexample :
    catInfoFail.artistInfo "x" = none ∧
    step2_artists catInfoFail [] [] ["metal"] ["metal"] [] initState
      = initState ∧
    step2_artists catInfoFail [] [] ["metal"] ["metal"]
        [⟨"x", "XA", []⟩] initState ≠ initState := by
  refine ⟨rfl, rfl, ?_⟩
  decide

/-- C8 (amended).  Per-item external-call failures are non-fatal and
never abort the discovery pass: a failed genre search skips that
genre, a failed top-tracks fetch skips that artist (both in STEP 1 and
in the STEP 2 artist loop), and a failed artist-info fetch during
genre verification lets the artist through rather than skipping it;
in every case processing continues with the remaining items. -/
theorem per_item_failure_C8 :
    (∀ (cat : Catalog) (ids names genres tgs : List String) (g : String)
        (rest : List String) (st : MixState),
      cat.searchArtists g = none →
      step2_genres cat ids names genres tgs (g :: rest) st =
        step2_genres cat ids names genres tgs rest st) ∧
    (∀ (cat : Catalog) (ids names genres tgs : List String)
        (a : FoundArtist) (rest : List FoundArtist) (st : MixState),
      cat.topTracks a.id = none →
      step2_artists cat ids names genres tgs (a :: rest) st =
        step2_artists cat ids names genres tgs rest st) ∧
    (∀ (cat : Catalog) (st : MixState) (aid : String),
      cat.topTracks aid = none → step1_artist cat st aid = st) ∧
    (∀ (cat : Catalog) (genres tgs : List String) (aid : String),
      cat.artistInfo aid = none →
      verify_artist_genre cat genres tgs aid = true) := by
  refine ⟨?_, ?_, ?_, ?_⟩
  · intro cat ids names genres tgs g rest st h
    simp [step2_genres, h]
  · intro cat ids names genres tgs a rest st h
    by_cases hsel : a.id ∈ ids ∨ pyLower a.name ∈ names
    · simp [step2_artists, hsel]
    · by_cases hver : verify_artist_genre cat genres tgs a.id = true
      · simp [step2_artists, hsel, hver, h]
      · simp [step2_artists, hsel, hver]
  · intro cat st aid h
    simp [step1_artist, h]
  · intro cat genres tgs aid h
    simp [verify_artist_genre, h]

/-- Witness for the amended C8 on the all-failing catalog. -/
theorem per_item_failure_C8_witness :
    step2_genres catAllFail [] [] ["metal"] ["metal"] ["metal"] initState =
      step2_genres catAllFail [] [] ["metal"] ["metal"] [] initState ∧
    step2_artists catAllFail [] [] ["metal"] ["metal"]
        [⟨"x", "XA", []⟩] initState =
      step2_artists catAllFail [] [] ["metal"] ["metal"] [] initState ∧
    step1_artist catAllFail initState "x" = initState ∧
    verify_artist_genre catAllFail ["metal"] ["metal"] "x" = true :=
  ⟨per_item_failure_C8.1 catAllFail [] [] ["metal"] ["metal"] "metal" []
      initState rfl,
   per_item_failure_C8.2.1 catAllFail [] [] ["metal"] ["metal"]
      ⟨"x", "XA", []⟩ [] initState rfl,
   per_item_failure_C8.2.2.1 catAllFail initState "x" rfl,
   per_item_failure_C8.2.2.2 catAllFail ["metal"] ["metal"] "x" rfl⟩

/-- C9.  Without a stored Spotify token the handler fails with the
explicit 401 error, independently of the catalog, the request and the
PRNG, i.e. before any catalog call or pool construction; no partial
playlist is produced. -/
theorem auth_missing_C9 (cat : Catalog) (req : TracksRequest)
    (permIds : List String → List String)
    (permD permS : List TrackData → List TrackData) :
    get_tracks none cat req permIds permD permS =
      Except.error (401, "Not authenticated with Spotify") := rfl


section Preserve

variable (P : MixState → Prop) (cat : Catalog)
variable (ids names genres tgs : List String)

/-- Any property preserved by guarded discovery adds survives the
shared track-adding loop. -/
theorem addLoop_preserve
    (haddT : ∀ st t, is_selected_artist ids names t = false →
      P st → P (add_track st t true)) (lim : Nat) :
    ∀ (l : List RawTrack) (st), P st → P (addLoop ids names lim l st) := by
  intro l
  induction l with
  | nil => intro st h; exact h
  | cons t ts ih =>
      intro st h
      have hst : ∀ st2 : MixState, P st2 →
          P (if lim ≤ st2.discovery_tracks.length then st2
             else addLoop ids names lim ts st2) := by
        intro st2 h2
        split_ifs
        · exact h2
        · exact ih st2 h2
      by_cases hg : is_selected_artist ids names t = true
      · simpa [addLoop, hg] using hst st h
      · have hg' : is_selected_artist ids names t = false := by
          simpa using hg
        simpa [addLoop, hg'] using hst _ (haddT st t hg' h)

theorem step2_artists_preserve
    (haddT : ∀ st t, is_selected_artist ids names t = false →
      P st → P (add_track st t true)) :
    ∀ (l : List FoundArtist) (st), P st →
      P (step2_artists cat ids names genres tgs l st) := by
  intro l
  induction l with
  | nil => intro st h; exact h
  | cons a rest ih =>
      intro st h
      by_cases h1 : a.id ∈ ids ∨ pyLower a.name ∈ names
      · simpa [step2_artists, h1] using ih st h
      · by_cases h2 : verify_artist_genre cat genres tgs a.id = true
        · cases htt : cat.topTracks a.id with
          | none => simpa [step2_artists, h1, h2, htt] using ih st h
          | some tracks =>
              have hP := addLoop_preserve P ids names haddT 150
                (tracks.take 5) st h
              by_cases hlim : 150 ≤
                  (addLoop ids names 150 (tracks.take 5) st).discovery_tracks.length
              · simpa [step2_artists, h1, h2, htt, hlim] using hP
              · simpa [step2_artists, h1, h2, htt, hlim] using ih _ hP
        · simpa [step2_artists, h1, h2] using ih st h

theorem step2_genres_preserve
    (haddT : ∀ st t, is_selected_artist ids names t = false →
      P st → P (add_track st t true)) :
    ∀ (l : List String) (st), P st →
      P (step2_genres cat ids names genres tgs l st) := by
  intro l
  induction l with
  | nil => intro st h; exact h
  | cons g rest ih =>
      intro st h
      cases hse : cat.searchArtists g with
      | none => simpa [step2_genres, hse] using ih st h
      | some found =>
          have hP := step2_artists_preserve P cat ids names genres tgs haddT
            found st h
          by_cases hlim : 150 ≤
              (step2_artists cat ids names genres tgs found st).discovery_tracks.length
          · simpa [step2_genres, hse, hlim] using hP
          · simpa [step2_genres, hse, hlim] using ih _ hP

theorem step3_track_artist_preserve
    (haddT : ∀ st t, is_selected_artist ids names t = false →
      P st → P (add_track st t true))
    (ta : SimpleArtist) (s : MixState × List String) (h : P s.1) :
    P (step3_track_artist cat ids names genres tgs ta s).1 := by
  rcases s with ⟨st, checked⟩
  by_cases h1 : ta.id ∈ checked
  · simpa [step3_track_artist, h1] using h
  · by_cases h2 : ta.id ∉ ids ∧ pyLower ta.name ∉ names
    · by_cases h3 : verify_artist_genre cat genres tgs ta.id = true
      · cases htt : cat.topTracks ta.id with
        | none => simpa [step3_track_artist, h1, h2, h3, htt] using h
        | some tracks =>
            have hP := addLoop_preserve P ids names haddT 200
              (tracks.take 3) st h
            simpa [step3_track_artist, h1, h2, h3, htt] using hP
      · simpa [step3_track_artist, h1, h2, h3] using h
    · simpa [step3_track_artist, h1, h2] using h

theorem step3_track_artists_preserve
    (haddT : ∀ st t, is_selected_artist ids names t = false →
      P st → P (add_track st t true)) :
    ∀ (l : List SimpleArtist) (s : MixState × List String), P s.1 →
      P (step3_track_artists cat ids names genres tgs l s).1 := by
  intro l
  induction l with
  | nil => intro s h; exact h
  | cons ta rest ih =>
      intro s h
      have hP := step3_track_artist_preserve P cat ids names genres tgs haddT
        ta s h
      rcases hx : step3_track_artist cat ids names genres tgs ta s with
        ⟨st', checked', stop⟩
      rw [hx] at hP
      by_cases hstop : stop = true
      · simpa [step3_track_artists, hx, hstop] using hP
      · have hstop' : stop = false := by simpa using hstop
        simpa [step3_track_artists, hx, hstop'] using ih _ hP

theorem step3_tracks_preserve
    (haddT : ∀ st t, is_selected_artist ids names t = false →
      P st → P (add_track st t true)) :
    ∀ (l : List RawTrack) (s : MixState × List String), P s.1 →
      P (step3_tracks cat ids names genres tgs l s).1 := by
  intro l
  induction l with
  | nil => intro s h; exact h
  | cons tr rest ih =>
      intro s h
      simp only [step3_tracks]
      exact ih _ (step3_track_artists_preserve P cat ids names genres tgs haddT
        (tr.artists.drop 1) s h)

theorem step3_albums_preserve
    (haddT : ∀ st t, is_selected_artist ids names t = false →
      P st → P (add_track st t true)) :
    ∀ (l : List String) (s : MixState × List String), P s.1 →
      P (step3_albums cat ids names genres tgs l s).1 := by
  intro l
  induction l with
  | nil => intro s h; exact h
  | cons al rest ih =>
      intro s h
      cases hab : cat.albumTracks al with
      | none => simpa [step3_albums, hab] using ih s h
      | some tracks =>
          have hP := step3_tracks_preserve P cat ids names genres tgs haddT
            tracks s h
          by_cases hlim : 200 ≤
              (step3_tracks cat ids names genres tgs tracks s).1.discovery_tracks.length
          · simpa [step3_albums, hab, hlim] using hP
          · simpa [step3_albums, hab, hlim] using ih _ hP

theorem step3_artists_preserve
    (haddT : ∀ st t, is_selected_artist ids names t = false →
      P st → P (add_track st t true)) :
    ∀ (l : List String) (s : MixState × List String), P s.1 →
      P (step3_artists cat ids names genres tgs l s).1 := by
  intro l
  induction l with
  | nil => intro s h; exact h
  | cons aid rest ih =>
      intro s h
      cases hal : cat.artistAlbums aid with
      | none => simpa [step3_artists, hal] using ih s h
      | some albums =>
          have hP := step3_albums_preserve P cat ids names genres tgs haddT
            (albums.take 5) s h
          by_cases hlim : 200 ≤
              (step3_albums cat ids names genres tgs
                (albums.take 5) s).1.discovery_tracks.length
          · simpa [step3_artists, hal, hlim] using hP
          · simpa [step3_artists, hal, hlim] using ih _ hP

theorem step3_preserve
    (haddT : ∀ st t, is_selected_artist ids names t = false →
      P st → P (add_track st t true))
    (shuffled : List String) (st : MixState) (h : P st) :
    P (step3 cat ids names genres tgs shuffled st) :=
  step3_artists_preserve P cat ids names genres tgs haddT
    (shuffled.take 5) (st, []) h

theorem foldl_addF_preserve
    (haddF : ∀ st t, P st → P (add_track st t false)) :
    ∀ (l : List RawTrack) (st), P st →
      P (l.foldl (fun s t => add_track s t false) st) := by
  intro l
  induction l with
  | nil => intro st h; exact h
  | cons t ts ih => intro st h; exact ih _ (haddF st t h)

theorem step1_artist_preserve
    (haddF : ∀ st t, P st → P (add_track st t false))
    (st : MixState) (aid : String) (h : P st) :
    P (step1_artist cat st aid) := by
  cases htt : cat.topTracks aid with
  | none => simpa [step1_artist, htt] using h
  | some tracks =>
      simpa [step1_artist, htt] using
        foldl_addF_preserve P haddF (tracks.take 5) st h

theorem step1_preserve
    (haddF : ∀ st t, P st → P (add_track st t false))
    (l : List String) (st : MixState) (h : P st) :
    P (step1 cat l st) := by
  simp only [step1]
  generalize l.take 10 = l10
  induction l10 generalizing st with
  | nil => exact h
  | cons aid rest ih =>
      exact ih _ (step1_artist_preserve P cat haddF st aid h)

end Preserve

/-- Every property preserved by pool adds (the discovery ones under the
`is_selected_artist` guard) holds for the pools of every request. -/
theorem mixPools_preserve (P : MixState → Prop) (cat : Catalog)
    (req : TracksRequest) (permIds : List String → List String)
    (haddF : ∀ st t, P st → P (add_track st t false))
    (haddT : ∀ st t,
      is_selected_artist (req.artists.map (fun a => a.id))
        (artist_names_of cat req) t = false →
      P st → P (add_track st t true))
    (h0 : P initState) : P (mixPools cat req permIds) := by
  simp only [mixPools]
  apply step3_preserve _ _ _ _ _ _ haddT
  apply step2_genres_preserve _ _ _ _ _ _ haddT
  exact step1_preserve P cat haddF _ _ h0

theorem add_track_true_selected (st : MixState) (t : RawTrack) :
    (add_track st t true).selected_artist_tracks =
      st.selected_artist_tracks := by
  by_cases hseen : t.uri ∈ st.seen_uris <;> simp [add_track, hseen]

theorem add_track_false_selected_len (st : MixState) (t : RawTrack) :
    (add_track st t false).selected_artist_tracks.length ≤
      st.selected_artist_tracks.length + 1 := by
  by_cases hseen : t.uri ∈ st.seen_uris <;> simp [add_track, hseen]

theorem foldl_addF_selected_len :
    ∀ (l : List RawTrack) (st : MixState),
      (l.foldl (fun s t => add_track s t false) st).selected_artist_tracks.length ≤
        st.selected_artist_tracks.length + l.length := by
  intro l
  induction l with
  | nil => intro st; simp
  | cons t ts ih =>
      intro st
      have h1 := add_track_false_selected_len st t
      have h2 := ih (add_track st t false)
      simp only [List.foldl_cons, List.length_cons]
      omega

theorem step1_artist_selected_len (cat : Catalog) (st : MixState)
    (aid : String) :
    (step1_artist cat st aid).selected_artist_tracks.length ≤
      st.selected_artist_tracks.length + 5 := by
  cases htt : cat.topTracks aid with
  | none => simp [step1_artist, htt]
  | some tracks =>
      have h1 := foldl_addF_selected_len (tracks.take 5) st
      have h2 : (tracks.take 5).length ≤ 5 := by
        simp [List.length_take]
      simp only [step1_artist, htt]
      omega

theorem foldl_step1_selected_len (cat : Catalog) :
    ∀ (l : List String) (st : MixState),
      (l.foldl (step1_artist cat) st).selected_artist_tracks.length ≤
        st.selected_artist_tracks.length + 5 * l.length := by
  intro l
  induction l with
  | nil => intro st; simp
  | cons aid rest ih =>
      intro st
      have h1 := step1_artist_selected_len cat st aid
      have h2 := ih (step1_artist cat st aid)
      simp only [List.foldl_cons, List.length_cons]
      omega

theorem step1_selected_le50 (cat : Catalog) (l : List String) :
    (step1 cat l initState).selected_artist_tracks.length ≤ 50 := by
  have h1 := foldl_step1_selected_len cat (l.take 10) initState
  have h2 : (l.take 10).length ≤ 10 := by simp [List.length_take]
  simp only [step1] at *
  have h0 : initState.selected_artist_tracks.length = 0 := rfl
  omega

/-- C10.  The selected pool is bounded: STEP 1 looks only at the first
ten shuffled seed artists and adds at most five tracks per artist, the
later steps never touch the selected pool, so after the whole mix the
selected pool holds at most 50 tracks; artists beyond the first ten
contribute nothing. -/
theorem selected_pool_bound_C10 :
    (∀ (cat : Catalog) (req : TracksRequest)
        (permIds : List String → List String),
      (mixPools cat req permIds).selected_artist_tracks.length ≤ 50) ∧
    (∀ (cat : Catalog) (l : List String) (st : MixState),
      step1 cat l st = step1 cat (l.take 10) st) ∧
    (∀ (cat : Catalog) (st : MixState) (aid : String),
      (step1_artist cat st aid).selected_artist_tracks.length ≤
        st.selected_artist_tracks.length + 5) := by
  refine ⟨?_, ?_, step1_artist_selected_len⟩
  · intro cat req permIds
    have haddT : ∀ (st : MixState) (t : RawTrack),
        is_selected_artist (req.artists.map (fun a => a.id))
          (artist_names_of cat req) t = false →
        st.selected_artist_tracks.length ≤ 50 →
        (add_track st t true).selected_artist_tracks.length ≤ 50 := by
      intro st t _ h
      rw [add_track_true_selected]
      exact h
    simp only [mixPools]
    apply step3_preserve (fun st => st.selected_artist_tracks.length ≤ 50)
      cat _ _ _ _ haddT
    apply step2_genres_preserve (fun st => st.selected_artist_tracks.length ≤ 50)
      cat _ _ _ _ haddT
    exact step1_selected_le50 cat _
  · intro cat l st
    simp [step1, List.take_take]


/-- The dedup invariant maintained by `seen_uris`: across both pools
every URI occurs at most once, and every pooled URI was recorded. -/
def InvDedup (st : MixState) : Prop :=
  ((st.selected_artist_tracks ++ st.discovery_tracks).map TrackData.uri).Nodup ∧
  ∀ u ∈ (st.selected_artist_tracks ++ st.discovery_tracks).map TrackData.uri,
    u ∈ st.seen_uris

/-- Appending one fresh track to either pool keeps pooled URIs distinct
and recorded. -/
theorem dedup_core (sel disc : List TrackData) (seen : List String)
    (td : TrackData)
    (h1 : ((sel ++ disc).map TrackData.uri).Nodup)
    (h2 : ∀ u ∈ (sel ++ disc).map TrackData.uri, u ∈ seen)
    (hn : td.uri ∉ seen) :
    (((sel ++ (disc ++ [td])).map TrackData.uri).Nodup ∧
      ∀ u ∈ (sel ++ (disc ++ [td])).map TrackData.uri, u ∈ td.uri :: seen) ∧
    ((((sel ++ [td]) ++ disc).map TrackData.uri).Nodup ∧
      ∀ u ∈ ((sel ++ [td]) ++ disc).map TrackData.uri, u ∈ td.uri :: seen) := by
  have hnotin : td.uri ∉ (sel ++ disc).map TrackData.uri :=
    fun hm => hn (h2 _ hm)
  have hp1 : (sel ++ (disc ++ [td])).Perm (td :: (sel ++ disc)) := by
    rw [← List.append_assoc]
    exact List.perm_append_comm
  have hp2 : ((sel ++ [td]) ++ disc).Perm (td :: (sel ++ disc)) := by
    rw [List.append_assoc]
    exact List.perm_middle
  have key : ∀ (l : List TrackData), l.Perm (td :: (sel ++ disc)) →
      ((l.map TrackData.uri).Nodup ∧
        ∀ u ∈ l.map TrackData.uri, u ∈ td.uri :: seen) := by
    intro l hp
    have hmapp := hp.map TrackData.uri
    constructor
    · refine hmapp.nodup_iff.mpr ?_
      simp only [List.map_cons]
      exact List.nodup_cons.mpr ⟨hnotin, h1⟩
    · intro u hu
      have hu2 : u ∈ (td :: (sel ++ disc)).map TrackData.uri :=
        hmapp.mem_iff.mp hu
      simp only [List.map_cons, List.mem_cons] at hu2
      rcases hu2 with rfl | hm
      · exact List.mem_cons_self _ _
      · exact List.mem_cons_of_mem _ (h2 _ hm)
  exact ⟨key _ hp1, key _ hp2⟩

theorem add_track_dedup (st : MixState) (t : RawTrack) (b : Bool)
    (h : InvDedup st) : InvDedup (add_track st t b) := by
  by_cases hseen : t.uri ∈ st.seen_uris
  · simpa [add_track, hseen] using h
  · have hcore := dedup_core st.selected_artist_tracks st.discovery_tracks
      st.seen_uris
      { uri := t.uri, name := t.name, artist := t.primary.name,
        artist_id := t.primary.id, album := t.album,
        duration_ms := t.duration_ms, is_discovery := b }
      h.1 h.2 hseen
    cases b with
    | true => simpa [InvDedup, add_track, hseen] using hcore.1
    | false => simpa [InvDedup, add_track, hseen] using hcore.2

/-- With no redistribution-branch information, STEP 4 is always the
interleaving of a prefix of each (shuffled) pool. -/
theorem assemble_is_takes (d s : List TrackData) :
    ∃ nd ns, assemble d s = interleave (d.take nd) (s.take ns) := by
  simp only [assemble]
  split_ifs <;> exact ⟨_, _, rfl⟩

/-- Every assembled track comes from one of the two pools. -/
theorem mem_assemble {t : TrackData} (d s : List TrackData)
    (ht : t ∈ assemble d s) : t ∈ d ∨ t ∈ s := by
  obtain ⟨nd, ns, heq⟩ := assemble_is_takes d s
  rw [heq] at ht
  have := (interleave_perm (d.take nd) (s.take ns)).mem_iff.mp ht
  rcases List.mem_append.mp this with hm | hm
  · exact Or.inl (List.mem_of_mem_take hm)
  · exact Or.inr (List.mem_of_mem_take hm)

/-- C5.  Dedup invariant: every URI occurs at most once in the
returned track list, across the discovery and selected portions, for
every request, catalog behavior and shuffle outcome. -/
theorem dedup_C5 (cat : Catalog) (req : TracksRequest)
    (permIds : List String → List String)
    (permD permS : List TrackData → List TrackData)
    (hD : (permD (mixPools cat req permIds).discovery_tracks).Perm
      (mixPools cat req permIds).discovery_tracks)
    (hS : (permS (mixPools cat req permIds).selected_artist_tracks).Perm
      (mixPools cat req permIds).selected_artist_tracks) :
    ((get_tracks_tracks cat req permIds permD permS).map TrackData.uri).Nodup := by
  have hinv : InvDedup (mixPools cat req permIds) :=
    mixPools_preserve InvDedup cat req permIds
      (fun st t h => add_track_dedup st t false h)
      (fun st t _ h => add_track_dedup st t true h)
      ⟨by simp [initState], by simp [initState]⟩
  have hout : get_tracks_tracks cat req permIds permD permS =
      assemble (permD (mixPools cat req permIds).discovery_tracks)
        (permS (mixPools cat req permIds).selected_artist_tracks) := rfl
  obtain ⟨nd, ns, heq⟩ :=
    assemble_is_takes (permD (mixPools cat req permIds).discovery_tracks)
      (permS (mixPools cat req permIds).selected_artist_tracks)
  rw [hout, heq]
  have hbig : (((permD (mixPools cat req permIds).discovery_tracks) ++
      (permS (mixPools cat req permIds).selected_artist_tracks)).map
        TrackData.uri).Nodup := by
    have hperm := (hD.append hS).trans List.perm_append_comm
    exact (hperm.map TrackData.uri).nodup_iff.mpr hinv.1
  have hsub :=
    ((List.take_sublist nd
        (permD (mixPools cat req permIds).discovery_tracks)).append
      (List.take_sublist ns
        (permS (mixPools cat req permIds).selected_artist_tracks))).map
      TrackData.uri
  have hfd := List.Nodup.sublist hsub hbig
  exact ((interleave_perm _ _).map TrackData.uri).nodup_iff.mpr hfd

/-- The request used by the concrete witnesses: one seed artist and a
"metal" station. -/
def reqW : TracksRequest := ⟨[⟨"seed1", "Seed"⟩], ["metal"]⟩

/-- A catalog serving one seed track and one genre-matched discovery
artist with one track. -/
def catW : Catalog :=
  { artistInfo := fun aid =>
      if aid = "seed1" then some ⟨"Seed", ["metal"]⟩
      else some ⟨"Disc", ["metal"]⟩,
    topTracks := fun aid =>
      if aid = "seed1" then
        some [⟨"uri:seed1", "ST", [⟨"seed1", "Seed"⟩], "Alb", 1000⟩]
      else some [⟨"uri:disc1", "DT", [⟨"disc1", "Disc"⟩], "Alb", 1000⟩],
    searchArtists := fun _ => some [⟨"disc1", "Disc", ["metal"]⟩],
    artistAlbums := fun _ => none,
    albumTracks := fun _ => none }

/-- Witness for C5: the mixed playlist of `catW` has pairwise distinct
URIs. -/
theorem dedup_C5_witness :
    ((get_tracks_tracks catW reqW id id id).map TrackData.uri).Nodup :=
  dedup_C5 catW reqW id id id (List.Perm.refl _) (List.Perm.refl _)

/-- The pool flag/guard invariant: every discovery-pool track is
flagged and its primary artist passed the `is_selected_artist` guard;
every selected-pool track is unflagged. -/
def InvFlags (ids names : List String) (st : MixState) : Prop :=
  (∀ t ∈ st.discovery_tracks, t.is_discovery = true ∧
    t.artist_id ∉ ids ∧ pyLower t.artist ∉ names) ∧
  (∀ t ∈ st.selected_artist_tracks, t.is_discovery = false)

theorem add_track_flags_false (ids names : List String) (st : MixState)
    (t : RawTrack) (h : InvFlags ids names st) :
    InvFlags ids names (add_track st t false) := by
  by_cases hseen : t.uri ∈ st.seen_uris
  · simpa [add_track, hseen] using h
  · have hadd : add_track st t false =
        { st with seen_uris := t.uri :: st.seen_uris,
                  selected_artist_tracks := st.selected_artist_tracks ++
                    [⟨t.uri, t.name, t.primary.name, t.primary.id, t.album,
                      t.duration_ms, false⟩] } := by
      simp [add_track, hseen]
    rw [hadd]
    refine ⟨fun td htd => h.1 td htd, ?_⟩
    intro td htd
    rcases List.mem_append.mp htd with hmem | hmem
    · exact h.2 _ hmem
    · obtain rfl := List.mem_singleton.mp hmem
      rfl

theorem add_track_flags_true (ids names : List String) (st : MixState)
    (t : RawTrack) (hg : is_selected_artist ids names t = false)
    (h : InvFlags ids names st) :
    InvFlags ids names (add_track st t true) := by
  have hg2 : t.primary.id ∉ ids ∧ pyLower t.primary.name ∉ names := by
    simpa [is_selected_artist] using hg
  by_cases hseen : t.uri ∈ st.seen_uris
  · simpa [add_track, hseen] using h
  · have hadd : add_track st t true =
        { st with seen_uris := t.uri :: st.seen_uris,
                  discovery_tracks := st.discovery_tracks ++
                    [⟨t.uri, t.name, t.primary.name, t.primary.id, t.album,
                      t.duration_ms, true⟩],
                  discovery_artist_names :=
                    t.primary.name :: st.discovery_artist_names } := by
      simp [add_track, hseen]
    rw [hadd]
    refine ⟨?_, fun td htd => h.2 td htd⟩
    intro td htd
    rcases List.mem_append.mp htd with hmem | hmem
    · exact h.1 _ hmem
    · obtain rfl := List.mem_singleton.mp hmem
      exact ⟨rfl, hg2.1, hg2.2⟩

/-- C6.  No output track is both flagged `is_discovery = true` and by
a seed artist, where seed membership is by artist id or by
case-insensitive artist name. -/
theorem discovery_not_seed_C6 (cat : Catalog) (req : TracksRequest)
    (permIds : List String → List String)
    (permD permS : List TrackData → List TrackData)
    (hD : (permD (mixPools cat req permIds).discovery_tracks).Perm
      (mixPools cat req permIds).discovery_tracks)
    (hS : (permS (mixPools cat req permIds).selected_artist_tracks).Perm
      (mixPools cat req permIds).selected_artist_tracks) :
    ∀ t ∈ get_tracks_tracks cat req permIds permD permS,
      t.is_discovery = true →
      t.artist_id ∉ req.artists.map (fun a => a.id) ∧
      pyLower t.artist ∉ req.artists.map (fun a => pyLower a.name) := by
  intro t ht hflag
  have hinv : InvFlags (req.artists.map (fun a => a.id))
      (artist_names_of cat req) (mixPools cat req permIds) :=
    mixPools_preserve _ cat req permIds
      (add_track_flags_false _ _)
      (add_track_flags_true _ _)
      ⟨by simp [initState, InvFlags], by simp [initState, InvFlags]⟩
  have hmem := mem_assemble _ _ ht
  rcases hmem with hm | hm
  · obtain ⟨_, hid, hname⟩ := hinv.1 t (hD.mem_iff.mp hm)
    refine ⟨hid, fun hc => hname ?_⟩
    have : artist_names_of cat req =
        req.artists.map (fun a => pyLower a.name) ++
          (((req.artists.map (fun a => a.id)).take 10).filterMap
            (fun i => (cat.artistInfo i).map (fun info => pyLower info.name))) :=
      rfl
    rw [this]
    exact List.mem_append_left _ hc
  · have hfl := hinv.2 t (hS.mem_iff.mp hm)
    rw [hflag] at hfl
    exact absurd hfl (by simp)

/-- The discovery track that `catW` produces, as stored in the pool. -/
def tdDisc : TrackData :=
  ⟨"uri:disc1", "DT", "Disc", "disc1", "Alb", 1000, true⟩

/-- Witness for C6: the discovery track of the `catW` playlist is by
neither the seed artist's id nor its name. -/
theorem discovery_not_seed_C6_witness :
    tdDisc.artist_id ∉ reqW.artists.map (fun a => a.id) ∧
    pyLower tdDisc.artist ∉ reqW.artists.map (fun a => pyLower a.name) :=
  discovery_not_seed_C6 catW reqW id id id (List.Perm.refl _)
    (List.Perm.refl _) tdDisc (by decide) (by decide)
